import Mathlib

/-!
# Verification of the crypto wallet sync engine

Shallow embedding of the reconciliation (sync) engine, batch fetcher,
transfer detector and upstream JSON client of the repository
(`main.go`, `blockchair/client.go`), together with proofs and refutations
of the specified properties.

Modelling conventions:
* Go `time.Time` values are modelled as `Nat` (an abstract monotone clock);
  Go `float64` money amounts are modelled as `ℚ` (the claims only use
  exact equality and order comparison of well-behaved decimal values).
* A Go `map[string]T` is modelled as an association list `List (String × T)`
  whose iteration order is the key insertion order; every statement proved
  below is insensitive to that ordering choice except concrete evaluations,
  where any iteration order produces the same multiset of results.
* Fallible Go functions return `Except`; a Go runtime panic (out-of-range
  index, failed type assertion) is a distinguished outcome constructor.
-/

namespace Cointracker

/-- `AddressesRecord` (main.go): row of the `addresses` table. -/
structure AddressesRecord where
  publicKey : String
  balance : ℚ
  createdAt : Nat
  updatedAt : Nat
  lastTxnHash : String
deriving DecidableEq

/-- `TransactionsRecord` (main.go): row of the `transactions` table,
keyed by the composite (txn_hash, public_key). -/
structure TransactionsRecord where
  txnHash : String
  publicKey : String
  amount : ℚ
  fee : ℚ
  txnTimestamp : Nat
  createdAt : Nat
deriving DecidableEq

/-- `blockchair.Address`: the balance part of an address snapshot. -/
structure Address where
  balanceUSD : ℚ
deriving DecidableEq

/-- `blockchair.AddressStats`: upstream snapshot of an address — balance
plus the ordered (newest-first) list of transaction ids. -/
structure AddressStats where
  addr : Address
  txns : List String
deriving DecidableEq

/-- `blockchair.Transaction`: minimal transaction detail object. -/
structure Transaction where
  hash : String
  timestamp : Nat
  amountUSD : ℚ
  feeUSD : ℚ
deriving DecidableEq

/-- `blockchair.TransactionWrapper`: envelope holding one transaction. -/
structure TransactionWrapper where
  txn : Transaction
deriving DecidableEq

/-! ## BatchFetcher (`getTransactions`, main.go lines 616–646) -/

/-- Fuel-indexed chunking loop: mirrors the Go loop
`for i := 0; i < len(txnHashes); i += 10` which appends `txnHashes[i:i+10]`
slices. The fuel is only a structural-recursion device; `batches` below
supplies enough fuel for the whole list. -/
def batchesFuel : Nat → List String → List (List String)
  | 0, _ => []
  | _ + 1, [] => []
  | fuel + 1, l => l.take 10 :: batchesFuel fuel (l.drop 10)

/-- The chunks of size (at most) 10 that `getTransactions` builds from the
input id list, in input order. -/
def batches (l : List String) : List (List String) :=
  batchesFuel l.length l

/-- One upstream call `GetTransactionsByHashes(batch)` in the successful
case: the provider returns one detail per requested id (the provider is
abstracted as a total function `String → TransactionWrapper`). -/
def fetchBatch (provider : String → TransactionWrapper) (batch : List String) :
    List (String × TransactionWrapper) :=
  batch.map fun h => (h, provider h)

/-- `mergeTxnMaps` (main.go): merges map `b` into map `a`,
`b` winning on key collisions (Go `a[k] = v` for each entry of `b`). -/
def mergeTxnMaps (a b : List (String × TransactionWrapper)) :
    List (String × TransactionWrapper) :=
  a.filter (fun p => !((b.map Prod.fst).contains p.1)) ++ b

/-- `getTransactions` (main.go): chunk the ids into batches of 10, issue
one upstream call per batch sequentially, and merge the per-batch maps. -/
def getTransactions (provider : String → TransactionWrapper)
    (txnHashes : List String) : List (String × TransactionWrapper) :=
  (batches txnHashes).foldl
    (fun txns batch => mergeTxnMaps txns (fetchBatch provider batch)) []

/-- The number of upstream calls `getTransactions` issues: one per batch. -/
def upstreamCalls (txnHashes : List String) : Nat :=
  (batches txnHashes).length

/-- Sizes of the chunks produced for a list of given length
(fuel-indexed companion of `batchesFuel`). -/
def chunkSizesFuel : Nat → Nat → List Nat
  | 0, _ => []
  | _ + 1, 0 => []
  | fuel + 1, n => min n 10 :: chunkSizesFuel fuel (n - 10)

/-! ## Blockchair client retry (`GetTransactionsByHashes`, client.go lines 130–180) -/

/-- One HTTP response as the Go code observes it: the status code and the
result of `json.Unmarshal` of its body into a `TransactionsResponse`
(`some data` when the body decodes, `none` when it does not). -/
structure HttpResponse where
  status : Nat
  body : Option (List (String × TransactionWrapper))
deriving DecidableEq

/-- Error results of the client call (the Go code returns plain `error`
values; these constructors name the three return sites). -/
inductive ClientError where
  | tooManyHashes
  | network
  | unmarshalFailed
deriving DecidableEq

/-- `GetTransactionsByHashes` (client.go lines 130–180), driven by the
sequence of responses the server gives to the consecutive `http.Get` calls;
the second component counts the HTTP requests issued. A list shorter than
the number of `http.Get` calls models a transport failure (`err != nil`).
On a 402 (throttle) status the chunk is retried exactly once after the
fixed cooldown (`time.Sleep(time.Minute * 1)`); the retry response's body
is then decoded without any further status check. -/
def getTransactionsByHashes (txnHashes : List String)
    (resps : List HttpResponse) :
    Except ClientError (List (String × TransactionWrapper)) × Nat :=
  if 10 < txnHashes.length then (.error .tooManyHashes, 0)
  else
    match resps with
    | [] => (.error .network, 1)
    | r1 :: rest =>
      if r1.status == 402 then
        match rest with
        | [] => (.error .network, 2)
        | r2 :: _ =>
          match r2.body with
          | some data => (.ok data, 2)
          | none => (.error .unmarshalFailed, 2)
      else
        match r1.body with
        | some data => (.ok data, 1)
        | none => (.error .unmarshalFailed, 1)

/-! ## SyncEngine (`sync`, main.go lines 456–530) -/

/-- The cursor scan inside `sync` (main.go lines 471–480): walk the
newest-first id list and, at the first id equal to the stored cursor, keep
only the ids strictly before it (`txnHashes = txnHashes[:i]; break`); when
the cursor never occurs the whole list is kept unchanged. -/
def truncateBefore (cursor : String) : List String → List String
  | [] => []
  | v :: rest => if v == cursor then [] else v :: truncateBefore cursor rest

/-- The "new" id sub-list that `sync` passes to the batch fetcher: the
whole snapshot list when no cursor is stored (`len(lastTxnHash) == 0`),
otherwise the prefix strictly before the cursor's first occurrence. -/
def newTxnHashes (txns : List String) (lastTxnHash : String) : List String :=
  if 0 < lastTxnHash.length then truncateBefore lastTxnHash txns else txns

/-- One buffered Spanner mutation as `sync` builds them:
`spanner.InsertStruct(transactionsTable, rec)` for every new transaction
record and `spanner.InsertOrUpdateStruct(addressesTable, address)` for the
address row. -/
inductive Mutation where
  | insert (rec : TransactionsRecord)
  | insertOrUpdate (rec : AddressesRecord)
deriving DecidableEq

/-- Result of one `sync` call with a successful upstream snapshot fetch:
either the updated address record, the new transaction records and the
buffered mutations, or the runtime panic the Go code hits when it indexes
`addrStats.Txns[0]` while the snapshot id list is empty. -/
inductive SyncOutcome where
  | ok (address : AddressesRecord) (transactions : List TransactionsRecord)
      (mutations : List Mutation)
  | panicIndexOutOfRange
deriving DecidableEq

/-- `sync` (main.go lines 456–530) after a successful snapshot fetch:
filter the already-seen ids with the cursor scan, fetch details for the
new ids through `getTransactions`, build one `TransactionsRecord` per
detail (created-at stamped with the wall clock `now`), and build the
updated `AddressesRecord` (balance from the snapshot, cursor
`addrStats.Txns[0]`, created-at and updated-at both `now`). The provider
`b` abstracts the Blockchair client on its successful path, one detail per
requested id. -/
def sync (b : String → TransactionWrapper) (addrStats : AddressStats)
    (addr lastTxnHash : String) (now : Nat) : SyncOutcome :=
  let txnHashes := newTxnHashes addrStats.txns lastTxnHash
  let txns := getTransactions b txnHashes
  let transactions := txns.map fun p =>
    ({ txnHash := p.2.txn.hash, publicKey := addr,
       amount := p.2.txn.amountUSD, fee := p.2.txn.feeUSD,
       txnTimestamp := p.2.txn.timestamp,
       createdAt := now } : TransactionsRecord)
  let mutations := transactions.map Mutation.insert
  match addrStats.txns with
  | [] => .panicIndexOutOfRange
  | newest :: _ =>
    let address : AddressesRecord :=
      { publicKey := addr, balance := addrStats.addr.balanceUSD,
        createdAt := now, updatedAt := now, lastTxnHash := newest }
    .ok address transactions (mutations ++ [Mutation.insertOrUpdate address])

/-- The address record a `sync` call returns, when it returns at all. -/
def SyncOutcome.addressRec : SyncOutcome → Option AddressesRecord
  | .ok a _ _ => some a
  | .panicIndexOutOfRange => none

/-- The new transaction records a `sync` call returns. -/
def SyncOutcome.newTxns : SyncOutcome → Option (List TransactionsRecord)
  | .ok _ t _ => some t
  | .panicIndexOutOfRange => none

/-- The mutations a `sync` call buffers into the store transaction. -/
def SyncOutcome.muts : SyncOutcome → Option (List Mutation)
  | .ok _ _ m => some m
  | .panicIndexOutOfRange => none

/-! ## Ledger store semantics for the transaction writes -/

/-- The `transactions` table: rows keyed by (txn_hash, public_key). -/
abbrev TransactionsTable := List ((String × String) × TransactionsRecord)

/-- Store-side failure of a buffered mutation at commit. -/
inductive StoreError where
  | alreadyExists
deriving DecidableEq

/-- Cloud Spanner semantics of the `Insert` mutation that `sync` buffers
for each transaction record (`spanner.InsertStruct`): committing a row
whose primary key already exists fails the transaction with
`AlreadyExists`; otherwise the row is added. -/
def applyInsert (table : TransactionsTable) (rec : TransactionsRecord) :
    Except StoreError TransactionsTable :=
  if (table.map Prod.fst).contains (rec.txnHash, rec.publicKey) then
    .error .alreadyExists
  else
    .ok (table ++ [((rec.txnHash, rec.publicKey), rec)])

/-! ## TransferDetector (`detectTransfers`, main.go lines 563–600) -/

/-- `CustomTxn` (main.go): transient wallet transaction, the input of the
transfer detector. -/
structure CustomTxn where
  txnID : String
  walletID : String
  txnTimestamp : Nat
  txnFlow : String
  amountUSD : ℚ
deriving DecidableEq

/-- The `less` closure passed to `sort.Slice` in `detectTransfers`:
earlier timestamp first; on equal timestamps, smaller amount first. -/
def txnLessB (a b : CustomTxn) : Bool :=
  if a.txnTimestamp < b.txnTimestamp then true
  else if a.txnTimestamp == b.txnTimestamp then
    decide (a.amountUSD < b.amountUSD)
  else false

/-- `txnLessB` as a decidable relation, for `List.insertionSort`. -/
def txnLess (a b : CustomTxn) : Prop :=
  txnLessB a b = true

instance : DecidableRel txnLess := fun a b => by
  unfold txnLess
  infer_instance

/-- `detectTransfers` (main.go lines 563–600): sorts the caller-supplied
slice in place with `sort.Slice` and then returns `nil, nil` — no pairing
is performed. The first component is the state of the caller's slice after
the call (Go `sort.Slice` mutates its argument; the comparison sort is
modelled as insertion sort over the same comparator — on inputs whose
comparator keys are pairwise distinct every correct sort produces this
unique result); the second component is the returned mapping, `none`
standing for Go's `nil` map. -/
def detectTransfers (txns : List CustomTxn) :
    List CustomTxn × Option (List (String × String)) :=
  (List.insertionSort txnLess txns, none)

/-! ## Strict decoding (`Transaction.UnmarshalJSON`, client.go lines 68–87) -/

/-- A dynamic JSON value as produced by `json.Unmarshal` into a Go
`map[string]interface` value, restricted to the scalar shapes the decoder
touches. -/
inductive Jv where
  | str (v : String)
  | num (v : ℚ)
  | boolean (v : Bool)
  | null
deriving DecidableEq

/-- Outcome of Go code that may panic. A failed unchecked type assertion
is an unrecovered runtime panic, not an error return. -/
inductive GoValue (α : Type) where
  | ok (a : α)
  | panics
deriving DecidableEq

/-- Go `v["k"].(string)`: a missing key (nil interface value) and any
non-string value panic. -/
def assertString : Option Jv → GoValue String
  | some (.str v) => .ok v
  | _ => .panics

/-- Go `v["k"].(float64)`: a missing key and any non-number value panic. -/
def assertFloat : Option Jv → GoValue ℚ
  | some (.num v) => .ok v
  | _ => .panics

/-- Overall outcome of `Transaction.UnmarshalJSON` on an already-parsed
JSON object. -/
inductive UnmarshalOutcome where
  | ok (t : Transaction)
  | timeParseError
  | panics
deriving DecidableEq

/-- `Transaction.UnmarshalJSON` (client.go lines 68–87): reads `hash`,
`output_total_usd`, `fee_usd` and `time` with unchecked type assertions in
source order, then parses the time string. `timeParse` abstracts
`time.Parse "2006-01-02 15:04:05"`; its `none` result is the parse error,
which the Go code does return as an error value. -/
def transactionUnmarshalJSON (timeParse : String → Option Nat)
    (v : List (String × Jv)) : UnmarshalOutcome :=
  match assertString (v.lookup "hash") with
  | .panics => .panics
  | .ok hash =>
    match assertFloat (v.lookup "output_total_usd") with
    | .panics => .panics
    | .ok amountUSD =>
      match assertFloat (v.lookup "fee_usd") with
      | .panics => .panics
      | .ok feeUSD =>
        match assertString (v.lookup "time") with
        | .panics => .panics
        | .ok rawTime =>
          match timeParse rawTime with
          | none => .timeParseError
          | some ts =>
            .ok { hash := hash, timestamp := ts,
                  amountUSD := amountUSD, feeUSD := feeUSD }

/-- Concrete witness input: 25 pairwise-distinct transaction ids. -/
def ids25 : List String :=
  ["t01", "t02", "t03", "t04", "t05", "t06", "t07", "t08", "t09", "t10",
   "t11", "t12", "t13", "t14", "t15", "t16", "t17", "t18", "t19", "t20",
   "t21", "t22", "t23", "t24", "t25"]

/-! ## Supporting lemmas -/

theorem batchesFuel_nil (fuel : Nat) : batchesFuel fuel [] = [] := by
  cases fuel <;> rfl

theorem batchesFuel_flatten :
    ∀ (fuel : Nat) (l : List String), l.length ≤ fuel →
      (batchesFuel fuel l).flatten = l := by
  intro fuel
  induction fuel with
  | zero =>
    intro l hl
    simp only [Nat.le_zero, List.length_eq_zero] at hl
    subst hl
    rfl
  | succ n ih =>
    intro l hl
    cases l with
    | nil => rfl
    | cons a rest =>
      have h1 : ((a :: rest).drop 10).length ≤ n := by
        simp only [List.length_drop, List.length_cons] at *
        omega
      simp only [batchesFuel, List.flatten]
      rw [ih _ h1]
      exact List.take_append_drop 10 (a :: rest)

theorem batches_flatten (l : List String) : (batches l).flatten = l :=
  batchesFuel_flatten l.length l le_rfl

theorem batchesFuel_map_length :
    ∀ (fuel : Nat) (l : List String), l.length ≤ fuel →
      (batchesFuel fuel l).map List.length = chunkSizesFuel fuel l.length := by
  intro fuel
  induction fuel with
  | zero =>
    intro l hl
    simp only [Nat.le_zero, List.length_eq_zero] at hl
    subst hl
    rfl
  | succ n ih =>
    intro l hl
    cases l with
    | nil => rfl
    | cons a rest =>
      have h1 : ((a :: rest).drop 10).length ≤ n := by
        simp only [List.length_drop, List.length_cons] at *
        omega
      simp only [batchesFuel, List.map, chunkSizesFuel]
      rw [ih _ h1]
      simp only [List.length_take, List.length_drop, List.length_cons]
      rw [Nat.min_comm]

theorem batches_map_length (l : List String) :
    (batches l).map List.length = chunkSizesFuel l.length l.length :=
  batchesFuel_map_length l.length l le_rfl

theorem batchesFuel_length_le :
    ∀ (fuel : Nat) (l : List String) (c : List String),
      c ∈ batchesFuel fuel l → c.length ≤ 10 ∧ c ≠ [] := by
  intro fuel
  induction fuel with
  | zero => intro l c hc; cases hc
  | succ n ih =>
    intro l c hc
    cases l with
    | nil => cases hc
    | cons a rest =>
      simp only [batchesFuel, List.mem_cons] at hc
      rcases hc with h | h
      · subst h
        constructor
        · simp [List.length_take]
        · simp
      · exact ih _ _ h

/-- Every chunk is nonempty and holds at most 10 ids. -/
theorem batches_mem (l : List String) (c : List String) (hc : c ∈ batches l) :
    c.length ≤ 10 ∧ c ≠ [] :=
  batchesFuel_length_le l.length l c hc

theorem mergeTxnMaps_keys_disjoint (a b : List (String × TransactionWrapper))
    (hd : ∀ p ∈ a, p.1 ∉ b.map Prod.fst) :
    mergeTxnMaps a b = a ++ b := by
  unfold mergeTxnMaps
  congr 1
  rw [List.filter_eq_self]
  intro p hp
  have hmem := hd p hp
  simpa [List.contains, List.elem_iff] using hmem

theorem getTransactions_foldl_keys (provider : String → TransactionWrapper) :
    ∀ (bs : List (List String)) (acc : List (String × TransactionWrapper)),
      (acc.map Prod.fst ++ bs.flatten).Nodup →
      (bs.foldl (fun txns batch => mergeTxnMaps txns (fetchBatch provider batch))
        acc).map Prod.fst = acc.map Prod.fst ++ bs.flatten := by
  intro bs
  induction bs with
  | nil => intro acc _; simp
  | cons b rest ih =>
    intro acc hnd
    simp only [List.flatten_cons, List.foldl_cons]
    have hd : ∀ p ∈ acc, p.1 ∉ (fetchBatch provider b).map Prod.fst := by
      intro p hp hcon
      have hmem : p.1 ∈ acc.map Prod.fst := List.mem_map_of_mem Prod.fst hp
      have hpb : p.1 ∈ b := by
        simpa [fetchBatch, List.map_map, Function.comp_def] using hcon
      have hdisj := (List.nodup_append.mp hnd).2.2
      exact hdisj hmem
        (by rw [List.flatten_cons]; exact List.mem_append.mpr (Or.inl hpb))
    have hkeys : (mergeTxnMaps acc (fetchBatch provider b)).map Prod.fst =
        acc.map Prod.fst ++ b := by
      rw [mergeTxnMaps_keys_disjoint _ _ hd]
      simp [fetchBatch, List.map_map, Function.comp_def]
    have hnd2 : ((mergeTxnMaps acc (fetchBatch provider b)).map Prod.fst ++
        rest.flatten).Nodup := by
      rw [hkeys]
      simpa [List.flatten_cons, List.append_assoc] using hnd
    rw [ih _ hnd2, hkeys, List.append_assoc]

/-- For duplicate-free ids, `getTransactions` returns exactly one entry per
requested id, in input order. -/
theorem getTransactions_keys (provider : String → TransactionWrapper)
    (ids : List String) (hnd : ids.Nodup) :
    (getTransactions provider ids).map Prod.fst = ids := by
  unfold getTransactions
  have h := getTransactions_foldl_keys provider (batches ids) []
  rw [batches_flatten] at h
  simpa using h (by simpa using hnd)


theorem truncateBefore_first_occurrence (c : String) :
    ∀ (l : List String) (i : Nat), l[i]? = some c → c ∉ l.take i →
      truncateBefore c l = l.take i := by
  intro l
  induction l with
  | nil => intro i hi _; simp at hi
  | cons a rest ih =>
    intro i hi hni
    cases i with
    | zero =>
      simp only [List.getElem?_cons_zero, Option.some.injEq] at hi
      subst hi
      simp [truncateBefore]
    | succ j =>
      simp only [List.getElem?_cons_succ] at hi
      have h1 : c ≠ a ∧ c ∉ rest.take j := by
        rw [List.take_succ_cons, List.mem_cons] at hni
        push_neg at hni
        exact hni
      have hbeq : (a == c) = false := by
        rw [beq_eq_false_iff_ne]
        exact fun h => h1.1 h.symm
      rw [List.take_succ_cons]
      unfold truncateBefore
      rw [hbeq]
      simp only [Bool.false_eq_true, if_false]
      rw [ih j hi h1.2]

theorem string_length_pos (s : String) (h : s ≠ "") : 0 < s.length := by
  cases s with
  | mk data =>
    cases data with
    | nil => exact absurd rfl h
    | cons c cs => simp [String.length]

theorem sync_ok_inv (b : String → TransactionWrapper) (stats : AddressStats)
    (addr cursor : String) (now : Nat) (a : AddressesRecord)
    (t : List TransactionsRecord) (m : List Mutation)
    (h : sync b stats addr cursor now = .ok a t m) :
    ∃ rest, stats.txns = a.lastTxnHash :: rest ∧
      a = ⟨addr, stats.addr.balanceUSD, now, now, a.lastTxnHash⟩ := by
  unfold sync at h
  cases hstats : stats.txns with
  | nil =>
    rw [hstats] at h
    simp at h
  | cons newest rest =>
    rw [hstats] at h
    simp only [SyncOutcome.ok.injEq] at h
    obtain ⟨ha, -, -⟩ := h
    subst ha
    exact ⟨rest, rfl, rfl⟩

theorem sync_self_cursor (b : String → TransactionWrapper) (stats : AddressStats)
    (addr : String) (now : Nat) (newest : String) (rest : List String)
    (hstats : stats.txns = newest :: rest) (hne : newest ≠ "") :
    sync b stats addr newest now =
      .ok ⟨addr, stats.addr.balanceUSD, now, now, newest⟩ []
        [Mutation.insertOrUpdate ⟨addr, stats.addr.balanceUSD, now, now, newest⟩] := by
  have hlen : 0 < newest.length := string_length_pos newest hne
  have hnh : newTxnHashes stats.txns newest = [] := by
    rw [hstats]
    unfold newTxnHashes
    rw [if_pos hlen]
    unfold truncateBefore
    simp
  unfold sync
  rw [hnh, hstats]
  rfl

/-! ## The claims -/

/-- C1 — Cursor correctness of incremental sync: when the stored cursor is
the k-th newest identifier of the snapshot list (its first occurrence, the
position at which the scan in `sync` stops), the "new" id sub-list that
`sync` computes and hands to the batch fetcher is exactly the first k−1
identifiers of the snapshot, in their original order. -/
theorem sync_cursor_correctness (txns : List String) (cursor : String) (k : Nat)
    (hk : 1 ≤ k) (hcur : cursor ≠ "")
    (hget : txns[k - 1]? = some cursor)
    (hfirst : cursor ∉ txns.take (k - 1)) :
    newTxnHashes txns cursor = txns.take (k - 1) ∧
      (newTxnHashes txns cursor).length = k - 1 := by
  have hlen : 0 < cursor.length := string_length_pos cursor hcur
  have h1 : newTxnHashes txns cursor = txns.take (k - 1) := by
    unfold newTxnHashes
    rw [if_pos hlen]
    exact truncateBefore_first_occurrence cursor txns (k - 1) hget hfirst
  refine ⟨h1, ?_⟩
  rw [h1, List.length_take]
  have hklen : k - 1 < txns.length := (List.getElem?_eq_some_iff.mp hget).1
  omega

/-- C1 witness: snapshot `["a", "b", "c"]` with the cursor at `k = 3`; the
new set is `["a", "b"]`, the first two ids in order. -/
theorem sync_cursor_correctness_witness :
    newTxnHashes ["a", "b", "c"] "c" = (["a", "b", "c"] : List String).take (3 - 1) ∧
      (newTxnHashes ["a", "b", "c"] "c").length = 3 - 1 :=
  sync_cursor_correctness ["a", "b", "c"] "c" 3 (by decide) (by decide) (by decide)
    (by decide)

/-- C2 counterexample — reconciliation is not idempotent as claimed: with an
unchanged upstream snapshot (one transaction `h1`, balance 5), a first sync
at clock 0 returns the record `⟨"a", 5, 0, 0, "h1"⟩`; the second sync, run
at clock 1 with the stored cursor `h1`, returns an empty new-transaction
list but the record `⟨"a", 5, 1, 1, "h1"⟩` — `sync` restamps both
created-at and updated-at with the current time, so the two records are
not identical. -/
theorem sync_idempotence_cex :
    (sync (fun h => ⟨⟨h, 3, 100, 1⟩⟩) ⟨⟨5⟩, ["h1"]⟩ "a" "" 0).addressRec =
        some ⟨"a", 5, 0, 0, "h1"⟩ ∧
      (sync (fun h => ⟨⟨h, 3, 100, 1⟩⟩) ⟨⟨5⟩, ["h1"]⟩ "a" "h1" 1).addressRec =
        some ⟨"a", 5, 1, 1, "h1"⟩ ∧
      (sync (fun h => ⟨⟨h, 3, 100, 1⟩⟩) ⟨⟨5⟩, ["h1"]⟩ "a" "h1" 1).newTxns =
        some [] ∧
      (⟨"a", 5, 1, 1, "h1"⟩ : AddressesRecord) ≠ ⟨"a", 5, 0, 0, "h1"⟩ := by
  decide

/-- C2 (amended) — idempotence up to timestamps: if a sync succeeds, a
second sync against the same upstream snapshot returns an empty list of
new transaction records and an address record that agrees with the first
on public key, balance and cursor; its created-at and updated-at are the
second call's wall-clock reading (both are restamped with `now`). -/
theorem sync_idempotent_amended (b : String → TransactionWrapper)
    (stats : AddressStats) (addr cursor : String) (now1 now2 : Nat)
    (a1 : AddressesRecord) (t1 : List TransactionsRecord) (m1 : List Mutation)
    (h1 : sync b stats addr cursor now1 = .ok a1 t1 m1)
    (hcur : a1.lastTxnHash ≠ "") :
    sync b stats addr a1.lastTxnHash now2 =
      .ok ⟨a1.publicKey, a1.balance, now2, now2, a1.lastTxnHash⟩ []
        [Mutation.insertOrUpdate
          ⟨a1.publicKey, a1.balance, now2, now2, a1.lastTxnHash⟩] := by
  obtain ⟨rest, hstats, ha⟩ := sync_ok_inv b stats addr cursor now1 a1 t1 m1 h1
  rw [sync_self_cursor b stats addr now2 a1.lastTxnHash rest hstats hcur]
  rw [ha]

/-- C2 witness: the amended idempotence at the concrete snapshot of the
counterexample. -/
theorem sync_idempotent_amended_witness :
    sync (fun h => ⟨⟨h, 3, 100, 1⟩⟩) ⟨⟨5⟩, ["h1"]⟩ "a" "h1" 1 =
      .ok ⟨"a", 5, 1, 1, "h1"⟩ [] [Mutation.insertOrUpdate ⟨"a", 5, 1, 1, "h1"⟩] :=
  sync_idempotent_amended (fun h => ⟨⟨h, 3, 100, 1⟩⟩) ⟨⟨5⟩, ["h1"]⟩ "a" "" 0 1
    ⟨"a", 5, 0, 0, "h1"⟩ [⟨"h1", "a", 100, 1, 3, 0⟩]
    [Mutation.insert ⟨"h1", "a", 100, 1, 3, 0⟩,
      Mutation.insertOrUpdate ⟨"a", 5, 0, 0, "h1"⟩]
    (by decide) (by decide)

/-- C3 — cursor-miss behaviour of the code: when the stored cursor `X`
does not occur in the returned page `["A", "B"]`, the scan leaves the id
list untouched, so `sync` silently re-fetches the entire page, rebuilds a
`TransactionsRecord` for every id on it and buffers a plain `Insert`
mutation for each — exactly the duplicated re-insertion of already
persisted records the claim rules out; no gap condition is surfaced. -/
theorem sync_cursor_miss_full_resync :
    newTxnHashes ["A", "B"] "X" = ["A", "B"] ∧
      (sync (fun h => ⟨⟨h, 3, 100, 1⟩⟩) ⟨⟨5⟩, ["A", "B"]⟩ "addr" "X" 0).newTxns =
        some [⟨"A", "addr", 100, 1, 3, 0⟩, ⟨"B", "addr", 100, 1, 3, 0⟩] ∧
      (sync (fun h => ⟨⟨h, 3, 100, 1⟩⟩) ⟨⟨5⟩, ["A", "B"]⟩ "addr" "X" 0).muts =
        some [Mutation.insert ⟨"A", "addr", 100, 1, 3, 0⟩,
          Mutation.insert ⟨"B", "addr", 100, 1, 3, 0⟩,
          Mutation.insertOrUpdate ⟨"addr", 5, 0, 0, "A"⟩] := by
  decide

/-- C4 — the transaction write of `sync` is not idempotent: `sync` buffers
a Spanner `Insert` (not insert-or-update) mutation for each transaction
record, and committing an `Insert` for a (txn_hash, public_key) key that
is already persisted fails with `AlreadyExists` instead of tolerating the
retried write. -/
theorem sync_insert_not_idempotent :
    (sync (fun h => ⟨⟨h, 3, 100, 1⟩⟩) ⟨⟨5⟩, ["h1"]⟩ "a" "" 7).muts =
        some [Mutation.insert ⟨"h1", "a", 100, 1, 3, 7⟩,
          Mutation.insertOrUpdate ⟨"a", 5, 7, 7, "h1"⟩] ∧
      applyInsert [(("h1", "a"), ⟨"h1", "a", 100, 1, 3, 6⟩)]
          ⟨"h1", "a", 100, 1, 3, 7⟩ =
        .error .alreadyExists :=
  ⟨by decide, rfl⟩

/-- C5 — batching: 25 duplicate-free ids are partitioned into consecutive
chunks in input order whose concatenation is the input, every chunk holds
at most 10 ids, exactly 3 upstream calls are issued with chunk sizes 10,
10 and 5, and the merged result holds exactly one entry per requested id
(25 entries, keys in input order). -/
theorem getTransactions_batching (ids : List String)
    (provider : String → TransactionWrapper) (hnd : ids.Nodup)
    (h25 : ids.length = 25) :
    (batches ids).flatten = ids ∧
      ((batches ids).all fun c => decide (c.length ≤ 10) && !c.isEmpty) = true ∧
      upstreamCalls ids = 3 ∧
      (batches ids).map List.length = [10, 10, 5] ∧
      (getTransactions provider ids).map Prod.fst = ids ∧
      (getTransactions provider ids).length = 25 := by
  have hsizes : (batches ids).map List.length = [10, 10, 5] := by
    rw [batches_map_length, h25]
    rfl
  have hkeys := getTransactions_keys provider ids hnd
  refine ⟨batches_flatten ids, ?_, ?_, hsizes, hkeys, ?_⟩
  · rw [List.all_eq_true]
    intro c hc
    obtain ⟨hle, hne⟩ := batches_mem ids c hc
    simp [hle, hne]
  · have := congrArg List.length hsizes
    simpa [upstreamCalls] using this
  · have := congrArg List.length hkeys
    simpa [h25] using this

/-- C5 witness: the batching property evaluated on 25 concrete distinct
ids. -/
theorem getTransactions_batching_witness :
    (batches ids25).flatten = ids25 ∧
      ((batches ids25).all fun c => decide (c.length ≤ 10) && !c.isEmpty) = true ∧
      upstreamCalls ids25 = 3 ∧
      (batches ids25).map List.length = [10, 10, 5] ∧
      (getTransactions (fun h => ⟨⟨h, 0, 0, 0⟩⟩) ids25).map Prod.fst = ids25 ∧
      (getTransactions (fun h => ⟨⟨h, 0, 0, 0⟩⟩) ids25).length = 25 :=
  getTransactions_batching ids25 (fun h => ⟨⟨h, 0, 0, 0⟩⟩) (by decide) (by decide)

/-- C6 — throttle handling of the code: one 402 followed by a success
returns the full data with no error after exactly one retry (2 requests);
but two consecutive 402 responses (each carrying Blockchair's JSON
rate-limit envelope, which decodes to an empty data map) make the call
return an empty mapping with success — the retry's status code is never
rechecked and no rate-limit error is surfaced. -/
theorem getTransactionsByHashes_throttle :
    getTransactionsByHashes ["h1"]
        [⟨402, none⟩, ⟨200, some [("h1", ⟨⟨"h1", 3, 100, 1⟩⟩)]⟩] =
      (.ok [("h1", ⟨⟨"h1", 3, 100, 1⟩⟩)], 2) ∧
    getTransactionsByHashes ["h1"] [⟨402, some []⟩, ⟨402, some []⟩] =
      (.ok [], 2) :=
  ⟨rfl, rfl⟩

/-- C7 — the transfer detector performs no pairing: on the specified
example `(A, out, 100, t0)`, `(B, in, 100, t0 + 2m)` it returns the nil
mapping, not `A ↦ B`; likewise after adding `(C, in, 100, t0 + 1m)` it
returns the nil mapping, not `A ↦ C` (`detectTransfers` only sorts and
then returns `nil, nil`). Timestamps are in seconds from `t0`. -/
theorem detectTransfers_returns_no_pairs :
    (detectTransfers [⟨"A", "w1", 0, "out", 100⟩, ⟨"B", "w2", 120, "in", 100⟩]).2 =
        none ∧
      (detectTransfers [⟨"A", "w1", 0, "out", 100⟩, ⟨"B", "w2", 120, "in", 100⟩,
          ⟨"C", "w3", 60, "in", 100⟩]).2 = none :=
  ⟨rfl, rfl⟩

/-- C8 counterexample — `detectTransfers` does not leave the caller's
sequence unchanged: `sort.Slice` reorders the input slice in place, so on
the unsorted input `[B at time 120, A at time 0]` the caller's sequence
afterwards is `[A, B]`, not the original order. -/
theorem detectTransfers_mutates_input :
    (detectTransfers [⟨"B", "w2", 120, "in", 100⟩, ⟨"A", "w1", 0, "out", 100⟩]).1 =
        [⟨"A", "w1", 0, "out", 100⟩, ⟨"B", "w2", 120, "in", 100⟩] ∧
      ([⟨"A", "w1", 0, "out", 100⟩, ⟨"B", "w2", 120, "in", 100⟩] : List CustomTxn) ≠
        [⟨"B", "w2", 120, "in", 100⟩, ⟨"A", "w1", 0, "out", 100⟩] :=
  ⟨by decide, by decide⟩

/-- C8 (amended) — `detectTransfers` has no effect beyond its returned
mapping and an in-place reordering of the caller's sequence: the sequence
after the call is a permutation of the input (no element is added, dropped
or modified), and the returned mapping is always the nil map. -/
theorem detectTransfers_sorts_in_place (txns : List CustomTxn) :
    ((detectTransfers txns).1).Perm txns ∧ (detectTransfers txns).2 = none :=
  ⟨List.perm_insertionSort txnLess txns, rfl⟩

/-- C9 — decoding is not strict: on a payload with the `hash` field
missing, and on a payload whose `hash` field carries a number instead of a
string, `Transaction.UnmarshalJSON` hits an unchecked type assertion and
panics — it neither returns a `MalformedDataError`-style error value nor
defaults the field (whatever the time parser does). -/
theorem transactionUnmarshalJSON_panics_on_shape
    (timeParse : String → Option Nat) :
    transactionUnmarshalJSON timeParse
        [("output_total_usd", .num 100), ("fee_usd", .num 1),
          ("time", .str "2022-09-13 04:16:16")] = .panics ∧
      transactionUnmarshalJSON timeParse
        [("hash", .num 5), ("output_total_usd", .num 100), ("fee_usd", .num 1),
          ("time", .str "2022-09-13 04:16:16")] = .panics :=
  ⟨rfl, rfl⟩

/-- C10 — empty snapshot: whenever the upstream snapshot's transaction-id
list is empty, `sync` ends in the out-of-range panic at
`addrStats.Txns[0]` for every address, stored cursor, clock reading and
provider — it never returns an address record or a structured error. -/
theorem sync_empty_snapshot_panics (b : String → TransactionWrapper)
    (balance : ℚ) (addr lastTxnHash : String) (now : Nat) :
    sync b ⟨⟨balance⟩, []⟩ addr lastTxnHash now = .panicIndexOutOfRange := rfl

end Cointracker
